import Mathlib

/-!
Verification development for the RAG contract-ingestion pipeline.

The definitions below are shallow embeddings of the Python backend:

* RuleTagger      — helpers/enrichments.py, enrich_title (rule-based title tagger)
* Enricher        — helpers/enrichments.py, enrich_json_with_summaries
* ChunkStore      — store_chunks.py (document/chunk persistence and backfill)
* RagApi          — rag_functions.py (retrieval, generation, upload endpoint)
* Ingest          — helpers/pdf_ingest.py (pipeline orchestration)

External services (OpenAI chat and embedding endpoints, the Supabase RPC
surface, the Unstructured partitioner, the filesystem) are passed in as
oracle functions; the database is an explicit record state.  Text is
modelled as List Char, machine reals in embeddings as Int lists (their
numeric content is never relevant to the claims).
-/

namespace RuleTagger

/-- Python re \s (ASCII range): space, tab, newline, carriage return,
vertical tab, form feed. -/
def isPySpace (c : Char) : Bool :=
  c == ' ' || c == '\t' || c == '\n' || c == '\r' || c == '\x0b' || c == '\x0c'

/-- Python re \w over ASCII input: letters, digits, underscore. -/
def isWordChar (c : Char) : Bool :=
  c.isAlpha || c.isDigit || c == '_'

/-- Whether the character at index i (if any) is a word character. -/
def wordAt (t : List Char) (i : Nat) : Bool :=
  match t.get? i with
  | some c => isWordChar c
  | none => false

/-- Python re \b at position i: exactly one side of the position is a
word character. -/
def wbAt (t : List Char) (i : Nat) : Bool :=
  (if i = 0 then false else wordAt t (i - 1)) != wordAt t i

/-- A small regex AST covering the constructs used by the title tagger's
patterns: character classes, literals (optionally case-insensitive),
concatenation, ordered alternation, greedy star and word boundaries. -/
inductive RE where
  | eps : RE
  | cls : (Char → Bool) → RE
  | lit : Bool → List Char → RE
  | seq : RE → RE → RE
  | alt : RE → RE → RE
  | star : RE → RE
  | wb : RE

/-- Ordered alternation of a list of regexes (first alternative preferred,
matching Python's alternation semantics). -/
def REalts : List RE → RE
  | [] => RE.cls (fun _ => false)
  | [r] => r
  | r :: rs => RE.alt r (REalts rs)

/-- Greedy plus. -/
def REplus (r : RE) : RE := RE.seq r (RE.star r)

/-- Greedy option. -/
def REopt (r : RE) : RE := RE.alt r RE.eps

/-- Case-insensitive equality of characters (ASCII lowering, matching
re.IGNORECASE on the ASCII inputs the tagger handles). -/
def ciEq (a b : Char) : Bool := a.toLower == b.toLower

/-- Does the literal lit occur at position i of t (case-insensitively when
ci is true)?  Mirrors matching a regex literal. -/
def litAt (ci : Bool) (t lit : List Char) (i : Nat) : Bool :=
  match lit with
  | [] => true
  | c :: rest =>
    match t.get? i with
    | none => false
    | some d => (if ci then ciEq c d else c == d) && litAt ci t rest (i + 1)

/-- One level of the backtracking engine: all end positions of a match of
re at position i of t, in backtracking preference order (the head is what
Python's engine reports).  A greedy star first tries to consume another
body iteration (which must advance the position) and only then the empty
expansion, so longer expansions come first; continuing the star after a
body iteration goes through rec, which reEnds below ties to the next
lower fuel level. -/
def reEndsStep (t : List Char) (rec : RE → Nat → List Nat) : RE → Nat → List Nat
  | RE.eps, i => [i]
  | RE.cls p, i =>
    match t.get? i with
    | some c => if p c then [i + 1] else []
    | none => []
  | RE.lit ci s, i => if litAt ci t s i then [i + s.length] else []
  | RE.seq a b, i => (reEndsStep t rec a i).flatMap (fun j => reEndsStep t rec b j)
  | RE.alt a b, i => reEndsStep t rec a i ++ reEndsStep t rec b i
  | RE.star a, i =>
    ((reEndsStep t rec a i).flatMap (fun j => if i < j then rec (RE.star a) j else []))
    ++ [i]
  | RE.wb, i => if wbAt t i then [i] else []

/-- The backtracking engine with fuel bounding star unrolling.  Every star
body in the patterns below consumes at least one character, so every
unrolling advances the position; the callers pass fuel exceeding the text
length, which therefore never runs out. -/
def reEnds (t : List Char) : Nat → RE → Nat → List Nat
  | 0, _, _ => []
  | fuel + 1, re, i => reEndsStep t (reEnds t fuel) re i

/-- The anchored match attempt at position i: the end position of the
match the backtracking engine finds first, if any. -/
def matchAt (re : RE) (t : List Char) (i : Nat) : Option Nat :=
  (reEnds t (t.length + 1) re i).head?

/-- re.finditer body: scan left to right from i, at each position attempt
an anchored match; after a match resume at its end (all patterns used
match at least one character, so the end is past the start).  fuel bounds
the number of scan steps; the caller passes one more than the text
length, which suffices since every step advances the position. -/
def findFrom (re : RE) (t : List Char) : Nat → Nat → List (Nat × Nat)
  | 0, _ => []
  | fuel + 1, i =>
    if i ≤ t.length then
      match matchAt re t i with
      | some j => (i, j) :: findFrom re t fuel (max j (i + 1))
      | none => findFrom re t fuel (i + 1)
    else []

/-- All (start, end) spans re.finditer(pattern, t) yields. -/
def findMatches (re : RE) (t : List Char) : List (Nat × Nat) :=
  findFrom re t (t.length + 1) 0

/-- [A-Za-z]; also [A-Z] under re.IGNORECASE. -/
def alphaCls : RE := RE.cls Char.isAlpha

/-- \d. -/
def digitCls : RE := RE.cls Char.isDigit

/-- [A-Z0-9] under re.IGNORECASE. -/
def alnumCls : RE := RE.cls (fun c => c.isAlpha || c.isDigit)

/-- \s. -/
def wsCls : RE := RE.cls isPySpace

/-- \s+. -/
def wsPlus : RE := REplus wsCls

/-- A case-insensitive literal. -/
def ciw (s : String) : RE := RE.lit true s.data

/-- A pattern together with the tag type it inserts ('LEGAL' stands for
the source's tag_type '<LEGAL>'). -/
structure TagPattern where
  re : RE
  tag : String

/-- Python slice t[s:e] (clamping like Python). -/
def sliceTxt (t : List Char) (s e : Nat) : List Char :=
  (t.drop s).take (e - s)

/-- The characters of an opening tag marker <NAME>. -/
def openTag (name : String) : List Char :=
  '<' :: name.data ++ ['>']

/-- The characters of a well-formed closing tag marker </NAME>, as the
tag vocabulary of the spec defines it (the splice itself emits a
malformed closer, see emittedCloser below). -/
def closeTag (name : String) : List Char :=
  '<' :: '/' :: name.data ++ ['>']

/-- r'\b((?:license|service|maintenance|support|software|subscription)\s+(?:agreement|contract)s?)\b'
with re.IGNORECASE (first phrase pattern, tag LEGAL). -/
def legalPhraseRE : RE :=
  RE.seq RE.wb (RE.seq
    (REalts [ciw "license", ciw "service", ciw "maintenance", ciw "support",
             ciw "software", ciw "subscription"])
    (RE.seq wsPlus (RE.seq (REalts [ciw "agreement", ciw "contract"])
      (RE.seq (REopt (ciw "s")) RE.wb))))

/-- r'\b([A-Z][A-Za-z]*(?:\s+[A-Z][A-Za-z]*)+\s*(?:Inc\.|LLC|Ltd\.|Corp\.|Corporation|Company|Co\.|Holdings|Group)?)\b'
with re.IGNORECASE (second phrase pattern, tag COMPANY). -/
def companyRE : RE :=
  RE.seq RE.wb (RE.seq alphaCls (RE.seq (RE.star alphaCls)
    (RE.seq (REplus (RE.seq wsPlus (RE.seq alphaCls (RE.star alphaCls))))
      (RE.seq (RE.star wsCls)
        (RE.seq (REopt (REalts [ciw "Inc.", ciw "LLC", ciw "Ltd.", ciw "Corp.",
                                ciw "Corporation", ciw "Company", ciw "Co.",
                                ciw "Holdings", ciw "Group"]))
          RE.wb)))))

/-- r'\b((?:SAMPLE|TEST)\s+(?:LICENSOR|LICENSEE|VENDOR|CUSTOMER|SUPPLIER|CONTRACTOR|PARTNER|BUYER|SELLER|PARTY))\b'
with re.IGNORECASE (third phrase pattern, tag PARTY). -/
def samplePartyRE : RE :=
  RE.seq RE.wb (RE.seq (REalts [ciw "SAMPLE", ciw "TEST"])
    (RE.seq wsPlus (RE.seq
      (REalts [ciw "LICENSOR", ciw "LICENSEE", ciw "VENDOR", ciw "CUSTOMER",
               ciw "SUPPLIER", ciw "CONTRACTOR", ciw "PARTNER", ciw "BUYER",
               ciw "SELLER", ciw "PARTY"])
      RE.wb)))

/-- The phrase_patterns list of enrich_title, in source order. -/
def phrase_patterns : List TagPattern :=
  [⟨legalPhraseRE, "LEGAL"⟩, ⟨companyRE, "COMPANY"⟩, ⟨samplePartyRE, "PARTY"⟩]

/-- A single-word alternation pattern r'\b(w1|w2|...)\b' with re.IGNORECASE. -/
def wordAlt (ws : List String) : RE :=
  RE.seq RE.wb (RE.seq (REalts (ws.map ciw)) RE.wb)

/-- \d{1,2} (greedy). -/
def d12RE : RE := RE.seq digitCls (REopt digitCls)

/-- \d{2,4} (greedy). -/
def d24RE : RE :=
  RE.seq digitCls (RE.seq digitCls (REopt (RE.seq digitCls (REopt digitCls))))

/-- \d{4}. -/
def d4RE : RE :=
  RE.seq digitCls (RE.seq digitCls (RE.seq digitCls digitCls))

/-- The class matching a dash or a forward slash. -/
def dashSlashCls : RE := RE.cls (fun c => c == '-' || c == '/')

/-- (?:Jan(?:uary)?|Feb(?:ruary)?|...|Dec(?:ember)?) with re.IGNORECASE. -/
def monthRE : RE :=
  REalts [
    RE.seq (ciw "Jan") (REopt (ciw "uary")),
    RE.seq (ciw "Feb") (REopt (ciw "ruary")),
    RE.seq (ciw "Mar") (REopt (ciw "ch")),
    RE.seq (ciw "Apr") (REopt (ciw "il")),
    ciw "May",
    RE.seq (ciw "Jun") (REopt (ciw "e")),
    RE.seq (ciw "Jul") (REopt (ciw "y")),
    RE.seq (ciw "Aug") (REopt (ciw "ust")),
    RE.seq (ciw "Sep") (REopt (ciw "tember")),
    RE.seq (ciw "Oct") (REopt (ciw "ober")),
    RE.seq (ciw "Nov") (REopt (ciw "ember")),
    RE.seq (ciw "Dec") (REopt (ciw "ember"))]

/-- The single-word DATE pattern with re.IGNORECASE: a numeric date
(one or two digits, dash or slash, one or two digits, dash or slash, two
to four digits, word-bounded) or a month-name date
(month name with optional long form, whitespace, day, comma, whitespace,
four-digit year, word-bounded). -/
def dateRE : RE :=
  RE.alt
    (RE.seq RE.wb (RE.seq d12RE (RE.seq dashSlashCls (RE.seq d12RE
      (RE.seq dashSlashCls (RE.seq d24RE RE.wb))))))
    (RE.seq RE.wb (RE.seq monthRE (RE.seq wsPlus (RE.seq d12RE
      (RE.seq (RE.lit false [',']) (RE.seq wsPlus (RE.seq d4RE RE.wb)))))))

/-- r'\b[A-Z0-9]+-[A-Z0-9]+(?:-[A-Z0-9]+)*\b|\bv\d+(?:\.\d+)*\b|#\d+\b'
with re.IGNORECASE (single-word ID pattern). -/
def idRE : RE :=
  REalts [
    RE.seq RE.wb (RE.seq (REplus alnumCls) (RE.seq (RE.lit false ['-'])
      (RE.seq (REplus alnumCls)
        (RE.seq (RE.star (RE.seq (RE.lit false ['-']) (REplus alnumCls))) RE.wb)))),
    RE.seq RE.wb (RE.seq (ciw "v") (RE.seq (REplus digitCls)
      (RE.seq (RE.star (RE.seq (RE.lit false ['.']) (REplus digitCls))) RE.wb))),
    RE.seq (RE.lit false ['#']) (RE.seq (REplus digitCls) RE.wb)]

/-- The single_word_patterns list of enrich_title, in source order. -/
def single_word_patterns : List TagPattern :=
  [⟨wordAlt ["agreement", "contract", "license", "amendment", "addendum",
            "deed", "memorandum", "terms", "conditions"], "LEGAL"⟩,
   ⟨wordAlt ["licensor", "licensee", "vendor", "customer", "supplier",
            "contractor", "partner", "buyer", "seller", "party", "parties"], "PARTY"⟩,
   ⟨wordAlt ["service", "product", "software", "platform", "system",
            "solution", "equipment", "goods"], "PRODUCT"⟩,
   ⟨wordAlt ["draft", "final", "revised", "amended", "executed",
            "confidential", "private"], "STATUS"⟩,
   ⟨dateRE, "DATE"⟩,
   ⟨idRE, "ID"⟩,
   ⟨wordAlt ["worldwide", "global", "international", "national",
            "regional", "domestic"], "TERRITORY"⟩]

/-- r'\b(licensor|licensee|vendor|customer)\b' with re.IGNORECASE: the role
keyword searched within 10 characters of a COMPANY match. -/
def roleRE : RE :=
  RE.seq RE.wb (RE.seq (REalts [ciw "licensor", ciw "licensee", ciw "vendor",
                                ciw "customer"]) RE.wb)

/-- re.search of roleRE in a window: a match at any position. -/
def hasRoleKeyword (w : List Char) : Bool :=
  (List.range (w.length + 1)).any (fun i => (matchAt roleRE w i).isSome)

/-- The closing marker the source's splice f-string actually emits:
f"..{matched_text}</{tag_type.strip('<>')}" ends after the tag name, with
no trailing '>', so the emitted closer is the malformed '</NAME'. -/
def emittedCloser (name : String) : List Char :=
  '<' :: '/' :: name.data

/-- Splicing one tagged match: enriched_text[:start] + tag_type + matched
text + the emitted (malformed, '>'-less) closer + enriched_text[end:]. -/
def spliceTag (t : List Char) (s e : Nat) (name : String) : List Char :=
  t.take s ++ openTag name ++ sliceTxt t s e ++ emittedCloser name ++ t.drop e

/-- The COMPANY-containing-PARTY double wrap of the phrase pass. -/
def spliceCompanyParty (t : List Char) (s e : Nat) : List Char :=
  t.take s ++ "<COMPANY><PARTY>".data ++ sliceTxt t s e
    ++ "</PARTY></COMPANY>".data ++ t.drop e

/-- The body of the phrase-pattern loop of enrich_title for one match,
given the current text: skip a COMPANY match with no uppercase letter,
double-wrap a COMPANY match with a role keyword within 10 characters,
otherwise splice the pattern's tag. -/
def phraseStep (pat : TagPattern) (t : List Char) (m : Nat × Nat) : List Char :=
  let matched := sliceTxt t m.1 m.2
  if pat.tag == "COMPANY" && !(matched.any Char.isUpper) then t
  else if pat.tag == "COMPANY" && hasRoleKeyword (sliceTxt t (m.1 - 10) (m.2 + 10)) then
    spliceCompanyParty t m.1 m.2
  else spliceTag t m.1 m.2 pat.tag

/-- One phrase pattern applied to the text: all matches are collected
first, then processed in reverse order. -/
def applyPhrasePattern (pat : TagPattern) (t : List Char) : List Char :=
  ((findMatches pat.re t).reverse).foldl (phraseStep pat) t

/-- Scan a suffix for character c, reporting its absolute index. -/
def firstIdxAux (c : Char) : List Char → Nat → Option Nat
  | [], _ => none
  | d :: rest, i => if d == c then some i else firstIdxAux c rest (i + 1)

/-- The first index at or after i holding character c. -/
def firstIdxFrom (t : List Char) (c : Char) (i : Nat) : Option Nat :=
  firstIdxAux c (t.drop i) i

/-- re.search(r'<[^>]+>[^<]*' + re.escape(lit), t): some position i holds
'<' followed by a nonempty run without '>' up to a '>' at j, then a run
without '<' after which lit occurs literally.  Because the first run
excludes '>', j is forced to be the first '>' after i+1, and the second
run keeps k at or before the first '<' after j. -/
def taggedBefore (t lit : List Char) : Bool :=
  (List.range t.length).any (fun i =>
    t.get? i == some '<' &&
    (match firstIdxFrom t '>' (i + 1) with
     | none => false
     | some j =>
       decide (i + 2 ≤ j) &&
       (let p := (firstIdxFrom t '<' (j + 1)).getD t.length
        (List.range' (j + 1) (p - j)).any (fun k => litAt false t lit k))))

/-- The body of the single-word-pattern loop of enrich_title for one
match: skip when the matched text already appears after a tag marker
anywhere in the current text, otherwise splice the pattern's tag. -/
def singleStep (pat : TagPattern) (t : List Char) (m : Nat × Nat) : List Char :=
  if taggedBefore t (sliceTxt t m.1 m.2) then t
  else spliceTag t m.1 m.2 pat.tag

/-- One single-word pattern applied to the text: all matches collected
first, then processed in reverse order. -/
def applySingleWordPattern (pat : TagPattern) (t : List Char) : List Char :=
  ((findMatches pat.re t).reverse).foldl (singleStep pat) t

/-- enrich_title (helpers/enrichments.py): the rule-based title tagger.
Applies the three phrase patterns in order, then the seven single-word
patterns in order. -/
def enrich_title (title_text : List Char) : List Char :=
  let afterPhrases := phrase_patterns.foldl (fun t pat => applyPhrasePattern pat t) title_text
  single_word_patterns.foldl (fun t pat => applySingleWordPattern pat t) afterPhrases

/-- The fixed tag vocabulary of the system (spec section 3). -/
def tagVocabulary : List String :=
  ["COMPANY", "PARTY", "DATE", "ADDRESS", "CONTACT", "RIGHTS", "TERRITORY",
   "TERM", "PAYMENT", "LEGAL", "PRODUCT", "ID", "STATUS"]

/-- All tag marker strings of the vocabulary, opening and closing. -/
def markerStrings : List (List Char) :=
  (tagVocabulary.map (fun n => [openTag n, closeTag n])).flatten

/-- Body of strip_tags with fuel bounding the number of steps; every step
consumes at least one character (every marker is nonempty), so fuel one
more than the text length suffices. -/
def strip_tagsAux : Nat → List Char → List Char
  | 0, _ => []
  | _ + 1, [] => []
  | fuel + 1, c :: rest =>
    match markerStrings.find? (fun m => m.isPrefixOf (c :: rest)) with
    | some m => strip_tagsAux fuel (rest.drop (m.length - 1))
    | none => c :: strip_tagsAux fuel rest

/-- Modelled from the spec: strip_tags, the tag-marker removal the spec's
round-trip property 'strip_tags(Rule_Tagger.tag(text)) == text' refers to
(the repository has no strip_tags function).  One left-to-right pass
removing every well-formed vocabulary marker <NAME> or </NAME>. -/
def strip_tags (t : List Char) : List Char :=
  strip_tagsAux (t.length + 1) t

end RuleTagger

namespace RuleTagger

/-- Does sub occur as a contiguous substring of t? -/
def containsSub (t sub : List Char) : Bool :=
  (List.range (t.length + 1)).any (fun i => litAt false t sub i)

/-- A phrase pattern with no match leaves the text unchanged. -/
lemma applyPhrasePattern_of_no_match (pat : TagPattern) (t : List Char)
    (h : findMatches pat.re t = []) : applyPhrasePattern pat t = t := by
  unfold applyPhrasePattern
  rw [h]
  rfl

/-- A single-word pattern with no match leaves the text unchanged. -/
lemma applySingleWordPattern_of_no_match (pat : TagPattern) (t : List Char)
    (h : findMatches pat.re t = []) : applySingleWordPattern pat t = t := by
  unfold applySingleWordPattern
  rw [h]
  rfl

/-- Folding phrase patterns none of which matches is the identity. -/
lemma foldl_phrase_of_no_match (ps : List TagPattern) (t : List Char)
    (h : ∀ pat ∈ ps, findMatches pat.re t = []) :
    ps.foldl (fun t' pat => applyPhrasePattern pat t') t = t := by
  induction ps with
  | nil => rfl
  | cons p ps ih =>
    simp only [List.foldl_cons]
    rw [applyPhrasePattern_of_no_match p t (h p (by simp))]
    exact ih (fun pat hm => h pat (by simp [hm]))

/-- Folding single-word patterns none of which matches is the identity. -/
lemma foldl_single_of_no_match (ps : List TagPattern) (t : List Char)
    (h : ∀ pat ∈ ps, findMatches pat.re t = []) :
    ps.foldl (fun t' pat => applySingleWordPattern pat t') t = t := by
  induction ps with
  | nil => rfl
  | cons p ps ih =>
    simp only [List.foldl_cons]
    rw [applySingleWordPattern_of_no_match p t (h p (by simp))]
    exact ih (fun pat hm => h pat (by simp [hm]))

end RuleTagger

open RuleTagger in
/-- Claim C1, counterexample: for the input "agreement", stripping all
tag markers from the Rule Tagger's output does not yield the input text
back — the splice emits its closing markers without the trailing '>'
(the source f-string ends right after the tag name), so the output
<LEGAL>agreement</LEGAL contains a malformed closer that stripping
cannot remove, and the round trip fails on any input some pattern
matches. -/
theorem claim1_counterexample :
    strip_tags (enrich_title ("agreement".data)) ≠ "agreement".data := by
  decide

open RuleTagger in
/-- Claim C1, amended: an input text in which no phrase pattern and no
single-word pattern finds any match is returned by the Rule Tagger
unchanged; the general round-trip property fails (see the
counterexample: every splice emits a '>'-less closing marker, so any
matched input comes back with malformed markers stripping cannot
remove). -/
theorem claim1_amended_no_match_unchanged (t : List Char)
    (h : ∀ pat ∈ phrase_patterns ++ single_word_patterns, findMatches pat.re t = []) :
    enrich_title t = t := by
  unfold enrich_title
  rw [foldl_phrase_of_no_match phrase_patterns t
    (fun pat hm => h pat (List.mem_append_left _ hm))]
  exact foldl_single_of_no_match single_word_patterns t
    (fun pat hm => h pat (List.mem_append_right _ hm))

open RuleTagger in
/-- Witness for the amended claim C1 at the concrete input "zz". -/
theorem claim1_amended_witness :
    (∀ pat ∈ phrase_patterns ++ single_word_patterns,
      findMatches pat.re ("zz".data) = []) ∧
    enrich_title ("zz".data) = "zz".data := by
  refine ⟨by decide, claim1_amended_no_match_unchanged _ (by decide)⟩

open RuleTagger in
/-- Claim C8, counterexample: for the input title "SAMPLE LICENSOR" (the
phrase with no adjacent corporate suffix), the Rule Tagger's output does
contain a COMPANY wrapper — the COMPANY phrase pattern treats the
corporate suffix as optional, so any capitalized multi-word sequence
matches it, and the embedded role word LICENSOR triggers the
COMPANY-around-PARTY double wrap. -/
theorem claim8_counterexample :
    containsSub (enrich_title ("SAMPLE LICENSOR".data)) ("<COMPANY>".data) = true := by
  decide

open RuleTagger in
/-- Claim C8, amended: for the input title "SAMPLE LICENSOR" the Rule
Tagger first double-wraps the phrase as COMPANY around PARTY (the COMPANY
pattern matches any capitalized multi-word sequence, its corporate suffix
being optional, and LICENSOR is a role keyword within 10 characters; this
branch is the one literal splice with well-formed closers), then the
SAMPLE/TEST phrase pattern adds an inner PARTY wrapper whose closer the
splice emits without its trailing '>', and finally the single-word pass
tags the word PARTY inside a closing marker, producing this exact
output. -/
theorem claim8_amended_actual_output :
    enrich_title ("SAMPLE LICENSOR".data) =
      ("<COMPANY><PARTY><PARTY>SAMPLE LICENSOR</PARTY</<PARTY>PARTY</PARTY></COMPANY>".data) := by
  decide

namespace ChunkStore

/-- A row of the documents table: lookup and insert by filename return a
document_id (store_chunks.py, the Supabase documents table surface). -/
structure DocRow where
  document_id : Nat
  filename : String
deriving DecidableEq, Repr

/-- A row of the chunks table, with the columns insert_chunks writes; the
embedding column is present or absent (NULL), never partially written. -/
structure ChunkRow where
  id : Nat
  element_id : String
  text : String
  document_id : Nat
  filetype : Option String
  languages : List String
  start_page_number : Option Nat
  end_page_number : Option Nat
  orig_elements : Option String
  source_file : String
  embedding : Option (List Int)
deriving DecidableEq, Repr

/-- The storage backend state: the documents and chunks tables plus the
serial id counters the store assigns on insert. -/
structure DB where
  documents : List DocRow
  nextDocId : Nat
  chunks : List ChunkRow
  nextChunkId : Nat
deriving DecidableEq, Repr

/-- encode_text_to_vector (store_chunks.py): ask the embedding oracle for
the text's vector; a raised exception is oracle none, and an answer with
no embedding data is returned as None as well, so the result is the
embedding exactly when the oracle yields a nonempty one. -/
def encode_text_to_vector (oracle : String → Option (List Int)) (text : String) :
    Option (List Int) :=
  match oracle text with
  | none => none
  | some v => if v = [] then none else some v

/-- get_or_create_document_id (store_chunks.py): select the first
documents row matching the filename; when none exists insert one, the
store assigning the next serial document_id. -/
def get_or_create_document_id (filename : String) (db : DB) : Nat × DB :=
  match db.documents.find? (fun r => r.filename == filename) with
  | some r => (r.document_id, db)
  | none =>
    (db.nextDocId,
     { db with documents := db.documents ++ [⟨db.nextDocId, filename⟩],
               nextDocId := db.nextDocId + 1 })

/-- fetch_chunks_without_embeddings (store_chunks.py): the chunks of the
document whose embedding column is NULL. -/
def fetch_chunks_without_embeddings (document_id : Nat) (db : DB) : List ChunkRow :=
  db.chunks.filter (fun c => c.document_id == document_id && c.embedding == none)

/-- update_chunk_embedding (store_chunks.py): set the embedding column of
the chunk row with the given id. -/
def update_chunk_embedding (chunk_id : Nat) (embedding : List Int) (db : DB) : DB :=
  { db with chunks := db.chunks.map (fun c =>
      if c.id == chunk_id then { c with embedding := some embedding } else c) }

/-- process_embeddings (store_chunks.py): fetch the document's chunks
with NULL embeddings once, then for each of them ask the embedding oracle
and, when it yields a vector, update that chunk row; a failed call leaves
the row as is and processing continues. -/
def process_embeddings (oracle : String → Option (List Int)) (document_id : Nat)
    (db : DB) : DB :=
  (fetch_chunks_without_embeddings document_id db).foldl
    (fun dbAcc chunk =>
      match encode_text_to_vector oracle chunk.text with
      | some embedding => update_chunk_embedding chunk.id embedding dbAcc
      | none => dbAcc)
    db

/-- The metadata mapping of one chunk JSON item; a None field models a
key that .get resolves to its default. -/
structure ChunkItemMeta where
  filetype : Option String
  languages : Option (List String)
  page_number : Option Nat
  orig_elements : Option String
deriving DecidableEq, Repr

/-- One item of the chunk JSON collection; a None field models a missing
key, whose access raises KeyError. -/
structure ChunkItem where
  element_id : Option String
  text : Option String
  metadata : Option ChunkItemMeta
deriving DecidableEq, Repr

/-- The body of the insert_chunks per-item loop: embed the item's text
(a failed embedding call leaves the column unset), build the chunk row
and insert it.  none models a raised per-item exception (a missing key),
which the loop catches. -/
def insertOneChunk (oracle : String → Option (List Int)) (document_id : Nat)
    (filename : String) (db : DB) (item : ChunkItem) : Option DB :=
  match item.text with
  | none => none
  | some txt =>
    let embedding := encode_text_to_vector oracle txt
    match item.metadata with
    | none => none
    | some md =>
      match item.element_id with
      | none => none
      | some eid =>
        some { db with
          chunks := db.chunks ++ [{
            id := db.nextChunkId,
            element_id := eid,
            text := txt,
            document_id := document_id,
            filetype := md.filetype,
            languages := md.languages.getD [],
            start_page_number := md.page_number,
            end_page_number := md.page_number,
            orig_elements := md.orig_elements,
            source_file := filename,
            embedding := embedding }],
          nextChunkId := db.nextChunkId + 1 }

/-- The insert_chunks loop over the items: a per-item failure is caught
and processing continues with the remaining items. -/
def insertChunksLoop (oracle : String → Option (List Int)) (document_id : Nat)
    (filename : String) (items : List ChunkItem) (db : DB) : DB :=
  items.foldl (fun dbAcc item =>
    match insertOneChunk oracle document_id filename dbAcc item with
    | some db' => db'
    | none => dbAcc) db

/-- os.path.basename: the portion of the path after the last slash. -/
def basename (p : String) : String :=
  ⟨p.data.foldl (fun acc c => if c == '/' then [] else acc ++ [c]) []⟩

/-- Body of Python str.replace(pat, ''): remove the leftmost-first
non-overlapping occurrences of pat; fuel one more than the text length
suffices since every step consumes at least one character. -/
def removeAllAux (pat : List Char) : Nat → List Char → List Char
  | 0, _ => []
  | _ + 1, [] => []
  | fuel + 1, c :: rest =>
    if pat.isPrefixOf (c :: rest) then removeAllAux pat fuel (rest.drop (pat.length - 1))
    else c :: removeAllAux pat fuel rest

/-- Python str.replace(pat, '') for a nonempty pat. -/
def removeAll (s pat : List Char) : List Char :=
  removeAllAux pat (s.length + 1) s

/-- The filename insert_chunks derives from the source path:
os.path.basename(file_path).replace('.json', ''). -/
def deriveFilename (p : String) : String :=
  ⟨removeAll (basename p).data (".json".data)⟩

/-- insert_chunks (store_chunks.py).  content is the parsed JSON file:
none models a read or parse failure, whose exception is printed and
re-raised (the Except.error outcome); an empty collection returns None
without a document id; otherwise the document id is resolved by
lookup-or-create on the derived filename and every item is inserted by
the loop, per-item failures being caught. -/
def insert_chunks (oracle : String → Option (List Int)) (file_path : String)
    (content : Option (List ChunkItem)) (db : DB) : Except String (Option Nat × DB) :=
  match content with
  | none => Except.error ("Error in insert_chunks: could not read " ++ file_path)
  | some json_data =>
    if json_data = [] then Except.ok (none, db)
    else
      let filename := deriveFilename file_path
      let resolved := get_or_create_document_id filename db
      Except.ok (some resolved.1,
        insertChunksLoop oracle resolved.1 filename json_data resolved.2)

end ChunkStore

namespace ChunkStore

/-- After lookup-or-create, a documents row with the requested filename
exists, is found first, and carries the returned document_id. -/
lemma get_or_create_found (f : String) (db : DB) :
    ∃ r, (get_or_create_document_id f db).2.documents.find?
        (fun r => r.filename == f) = some r ∧
      r.document_id = (get_or_create_document_id f db).1 := by
  unfold get_or_create_document_id
  cases hf : db.documents.find? (fun r => r.filename == f) with
  | some r => exact ⟨r, by simp [hf]⟩
  | none =>
    refine ⟨⟨db.nextDocId, f⟩, ?_, rfl⟩
    simp [List.find?_append, hf]

/-- A successful per-item insert changes neither the documents table nor
the next document id. -/
lemma insertOneChunk_documents (o : String → Option (List Int)) (d : Nat)
    (f : String) (db : DB) (item : ChunkItem) (db' : DB)
    (h : insertOneChunk o d f db item = some db') :
    db'.documents = db.documents ∧ db'.nextDocId = db.nextDocId := by
  unfold insertOneChunk at h
  cases htxt : item.text with
  | none => simp [htxt] at h
  | some txt =>
    cases hmd : item.metadata with
    | none => simp [htxt, hmd] at h
    | some md =>
      cases heid : item.element_id with
      | none => simp [htxt, hmd, heid] at h
      | some eid =>
        simp only [htxt, hmd, heid, Option.some.injEq] at h
        subst h
        exact ⟨rfl, rfl⟩

/-- The insert loop changes neither the documents table nor the next
document id. -/
lemma insertChunksLoop_documents (o : String → Option (List Int)) (d : Nat)
    (f : String) (items : List ChunkItem) (db : DB) :
    (insertChunksLoop o d f items db).documents = db.documents ∧
    (insertChunksLoop o d f items db).nextDocId = db.nextDocId := by
  induction items generalizing db with
  | nil => exact ⟨rfl, rfl⟩
  | cons item items ih =>
    unfold insertChunksLoop
    simp only [List.foldl_cons]
    cases h : insertOneChunk o d f db item with
    | none =>
      have := ih db
      unfold insertChunksLoop at this
      simpa using this
    | some db' =>
      have hd := insertOneChunk_documents o d f db item db' h
      have := ih db'
      unfold insertChunksLoop at this
      exact ⟨this.1.trans hd.1, this.2.trans hd.2⟩

/-- An item with a missing key fails (KeyError) in any database state. -/
lemma insertOneChunk_none_of_missing (o : String → Option (List Int)) (d : Nat)
    (f : String) (db : DB) (item : ChunkItem)
    (h : item.text = none ∨ item.metadata = none ∨ item.element_id = none) :
    insertOneChunk o d f db item = none := by
  unfold insertOneChunk
  cases htxt : item.text with
  | none => rfl
  | some txt =>
    cases hmd : item.metadata with
    | none => rfl
    | some md =>
      cases heid : item.element_id with
      | none => rfl
      | some eid =>
        rcases h with h | h | h <;> simp [htxt, hmd, heid] at h

end ChunkStore

open ChunkStore in
/-- Claim C2: insert_chunks called twice on readable, nonempty chunk
files deriving the same filename resolves both calls to the same
document_id; the document record is created by the first call when the
filename is new (exactly one row afterwards) and the second call creates
nothing (lookup-or-create keyed on filename). -/
theorem claim2_insert_chunks_idempotent_docid
    (oracle₁ oracle₂ : String → Option (List Int)) (p₁ p₂ : String)
    (c₁ c₂ : List ChunkItem) (db : DB)
    (h₁ : c₁ ≠ []) (h₂ : c₂ ≠ [])
    (hfn : deriveFilename p₁ = deriveFilename p₂) :
    ∃ i db₁ db₂,
      insert_chunks oracle₁ p₁ (some c₁) db = Except.ok (some i, db₁) ∧
      insert_chunks oracle₂ p₂ (some c₂) db₁ = Except.ok (some i, db₂) ∧
      db₂.documents = db₁.documents ∧
      ((∀ r ∈ db.documents, r.filename ≠ deriveFilename p₁) →
        db₁.documents.countP (fun r => r.filename == deriveFilename p₁) = 1) := by
  obtain ⟨i, dbA, hgo⟩ :
      ∃ i dbA, get_or_create_document_id (deriveFilename p₁) db = (i, dbA) :=
    ⟨_, _, rfl⟩
  have hdocs₁ : (insertChunksLoop oracle₁ i (deriveFilename p₁) c₁ dbA).documents
      = dbA.documents :=
    (insertChunksLoop_documents oracle₁ i (deriveFilename p₁) c₁ dbA).1
  -- the second lookup finds the row the first call guarantees
  obtain ⟨r, hfind, hrid⟩ := get_or_create_found (deriveFilename p₁) db
  rw [hgo] at hfind hrid
  dsimp only at hfind hrid
  have hgo₂ : get_or_create_document_id (deriveFilename p₁)
        (insertChunksLoop oracle₁ i (deriveFilename p₁) c₁ dbA)
      = (i, insertChunksLoop oracle₁ i (deriveFilename p₁) c₁ dbA) := by
    unfold get_or_create_document_id
    rw [hdocs₁, hfind]
    simpa using hrid
  refine ⟨i, insertChunksLoop oracle₁ i (deriveFilename p₁) c₁ dbA,
    insertChunksLoop oracle₂ i (deriveFilename p₁)
      c₂ (insertChunksLoop oracle₁ i (deriveFilename p₁) c₁ dbA), ?_, ?_, ?_, ?_⟩
  · simp only [insert_chunks]
    rw [if_neg h₁, hgo]
  · simp only [insert_chunks]
    rw [if_neg h₂, ← hfn, hgo₂]
  · exact (insertChunksLoop_documents oracle₂ i (deriveFilename p₁) c₂ _).1
  · intro hnew
    have hnone : db.documents.find?
        (fun r => r.filename == deriveFilename p₁) = none := by
      rw [List.find?_eq_none]
      intro x hx
      simpa using hnew x hx
    have hdbA : dbA.documents = db.documents ++ [⟨db.nextDocId, deriveFilename p₁⟩] := by
      unfold get_or_create_document_id at hgo
      rw [hnone] at hgo
      cases hgo
      rfl
    rw [hdocs₁, hdbA, List.countP_append]
    have hzero : db.documents.countP
        (fun r => r.filename == deriveFilename p₁) = 0 := by
      rw [List.countP_eq_zero]
      intro x hx
      simpa using hnew x hx
    simp [hzero]

open ChunkStore in
/-- Witness for claim C2 at concrete inputs: two one-item files for the
paths data/x.json and out/x.json both resolve to one document_id. -/
theorem claim2_witness :
    ∃ i db₁ db₂,
      insert_chunks (fun _ => some [1]) "data/x.json"
        (some [⟨some "e1", some "t1", some ⟨none, none, none, none⟩⟩]) ⟨[], 1, [], 1⟩
        = Except.ok (some i, db₁) ∧
      insert_chunks (fun _ => none) "out/x.json"
        (some [⟨some "e2", some "t2", some ⟨none, none, none, none⟩⟩]) db₁
        = Except.ok (some i, db₂) ∧
      db₂.documents = db₁.documents ∧
      ((∀ r ∈ ([] : List DocRow), r.filename ≠ deriveFilename "data/x.json") →
        db₁.documents.countP
          (fun r => r.filename == deriveFilename "data/x.json") = 1) := by
  exact claim2_insert_chunks_idempotent_docid (fun _ => some [1]) (fun _ => none)
    "data/x.json" "out/x.json" _ _ ⟨[], 1, [], 1⟩ (by decide) (by decide) (by decide)

namespace ChunkStore

/-- An item that fails in every state is skipped by the loop: the items
around it are processed exactly as if it were absent. -/
lemma insertChunksLoop_skip (o : String → Option (List Int)) (d : Nat) (f : String)
    (items₁ items₂ : List ChunkItem) (bad : ChunkItem) (db : DB)
    (h : ∀ dbx, insertOneChunk o d f dbx bad = none) :
    insertChunksLoop o d f (items₁ ++ bad :: items₂) db =
      insertChunksLoop o d f (items₁ ++ items₂) db := by
  unfold insertChunksLoop
  simp only [List.foldl_append, List.foldl_cons, h]

/-- Oracle returning no vector for any text (a failing embedding
endpoint), used by concrete witnesses. -/
def oracleNoneW : String → Option (List Int) := fun _ => none

/-- An empty store, used by concrete witnesses. -/
def db0 : DB := ⟨[], 1, [], 1⟩

/-- A complete chunk item, used by concrete witnesses. -/
def item0 : ChunkItem := ⟨some "e", some "t", some ⟨none, none, none, none⟩⟩

/-- A chunk item with a missing text key, used by concrete witnesses. -/
def badItem : ChunkItem := ⟨some "e", none, some ⟨none, none, none, none⟩⟩

end ChunkStore

open ChunkStore in
/-- Claim C5, counterexample: a structurally empty chunk file does not
make insert_chunks raise — it returns None (no document id) and leaves
the store untouched, so 'propagates a fatal error if and only if the
file cannot be read or is structurally empty' fails in the 'empty
implies raises' direction. -/
theorem claim5_counterexample :
    insert_chunks oracleNoneW "contract.json" (some []) db0 =
      Except.ok (none, db0) := by
  rfl

open ChunkStore in
/-- Claim C5, amended: insert_chunks propagates a fatal error exactly
when the source chunk file cannot be read; a structurally empty file
returns None without raising; a readable nonempty file always returns a
document_id, every per-item failure being caught by the loop, which
continues with the remaining items exactly as if the failing item were
absent. -/
theorem claim5_amended_fatal_iff_unreadable
    (oracle : String → Option (List Int)) (p : String) (db : DB) :
    (∃ e, insert_chunks oracle p none db = Except.error e) ∧
    insert_chunks oracle p (some []) db = Except.ok (none, db) ∧
    (∀ items : List ChunkItem, items ≠ [] →
      ∃ i db', insert_chunks oracle p (some items) db = Except.ok (some i, db')) ∧
    (∀ (d : Nat) (f : String) (items₁ items₂ : List ChunkItem) (bad : ChunkItem)
        (dbx : DB),
      bad.text = none ∨ bad.metadata = none ∨ bad.element_id = none →
      insertChunksLoop oracle d f (items₁ ++ bad :: items₂) dbx =
        insertChunksLoop oracle d f (items₁ ++ items₂) dbx) := by
  refine ⟨⟨_, rfl⟩, by simp [insert_chunks], ?_, ?_⟩
  · intro items h
    simp only [insert_chunks]
    rw [if_neg h]
    exact ⟨_, _, rfl⟩
  · intro d f items₁ items₂ bad dbx hmiss
    exact insertChunksLoop_skip oracle d f items₁ items₂ bad dbx
      (fun dby => insertOneChunk_none_of_missing oracle d f dby bad hmiss)

open ChunkStore in
/-- Witness for the amended claim C5 at concrete inputs: a one-item file
returns a document id, and a loop containing an item with a missing text
key equals the loop without it. -/
theorem claim5_amended_witness :
    (∃ i db', insert_chunks oracleNoneW "a/b.json" (some [item0]) db0 =
      Except.ok (some i, db')) ∧
    insertChunksLoop oracleNoneW 1 "b" ([item0] ++ badItem :: [item0]) db0 =
      insertChunksLoop oracleNoneW 1 "b" ([item0] ++ [item0]) db0 :=
  ⟨(claim5_amended_fatal_iff_unreadable oracleNoneW "a/b.json" db0).2.2.1
      [item0] (by decide),
   (claim5_amended_fatal_iff_unreadable oracleNoneW "a/b.json" db0).2.2.2
      1 "b" [item0] [item0] badItem db0 (Or.inl rfl)⟩

namespace ChunkStore

/-- The effect of one backfill iteration for fetched chunk c on a single
row: when the embedding call for c's text succeeds, the row with c's id
gets that embedding; otherwise nothing changes. -/
def rowUpd (oracle : String → Option (List Int)) (c r : ChunkRow) : ChunkRow :=
  match encode_text_to_vector oracle c.text with
  | some e => if r.id == c.id then { r with embedding := some e } else r
  | none => r

/-- The backfill loop acts row-wise: its chunks table is the original one
mapped through the per-row effects of the fetched chunks in order. -/
lemma foldl_upd_chunks (oracle : String → Option (List Int))
    (l : List ChunkRow) (db : DB) :
    (l.foldl (fun dbAcc chunk =>
        match encode_text_to_vector oracle chunk.text with
        | some embedding => update_chunk_embedding chunk.id embedding dbAcc
        | none => dbAcc) db).chunks
      = db.chunks.map (fun r => l.foldl (fun r' c => rowUpd oracle c r') r) := by
  induction l generalizing db with
  | nil => simp
  | cons c l ih =>
    simp only [List.foldl_cons]
    cases h : encode_text_to_vector oracle c.text with
    | none =>
      rw [ih]
      refine List.map_congr_left (fun r _ => ?_)
      have hc : rowUpd oracle c r = r := by unfold rowUpd; rw [h]
      rw [hc]
    | some e =>
      rw [ih]
      unfold update_chunk_embedding
      simp only [List.map_map]
      refine List.map_congr_left (fun r _ => ?_)
      have hc : rowUpd oracle c r =
          (if r.id == c.id then { r with embedding := some e } else r) := by
        unfold rowUpd; rw [h]
      simp only [Function.comp_apply, hc]

/-- Rows whose id never occurs among the fetched chunks are untouched by
the per-row effects. -/
lemma rowUpd_untouched (oracle : String → Option (List Int))
    (l : List ChunkRow) (r : ChunkRow) (h : ∀ c ∈ l, c.id ≠ r.id) :
    l.foldl (fun r' c => rowUpd oracle c r') r = r := by
  induction l with
  | nil => rfl
  | cons c l ih =>
    simp only [List.foldl_cons]
    have hc : rowUpd oracle c r = r := by
      unfold rowUpd
      cases encode_text_to_vector oracle c.text with
      | none => rfl
      | some e =>
        have : (r.id == c.id) = false := by
          simp [Ne.symm (h c (List.mem_cons_self c l))]
        simp [this]
    rw [hc]
    exact ih (fun c' hc' => h c' (List.mem_cons_of_mem c hc'))

end ChunkStore

namespace ChunkStore

/-- Row-wise description of the backfill, row by row: under unique chunk
ids and an embedding oracle succeeding on the document's unset chunks,
the fetched iterations set exactly the unset rows of the document and
leave every other row untouched. -/
lemma backfill_pointwise (oracle : String → Option (List Int)) (docId : Nat)
    (db : DB)
    (hnodup : (db.chunks.map (fun c => c.id)).Nodup)
    (hsucc : ∀ c ∈ db.chunks, c.document_id = docId → c.embedding = none →
      (encode_text_to_vector oracle c.text).isSome = true)
    (r : ChunkRow) (hr : r ∈ db.chunks) :
    (fetch_chunks_without_embeddings docId db).foldl
        (fun r' c => rowUpd oracle c r') r =
      (if r.document_id = docId ∧ r.embedding = none
       then { r with embedding := encode_text_to_vector oracle r.text } else r) := by
  by_cases hp : r.document_id = docId ∧ r.embedding = none
  · rw [if_pos hp]
    obtain ⟨hdoc, hemb⟩ := hp
    obtain ⟨v, hv⟩ : ∃ v, encode_text_to_vector oracle r.text = some v :=
      Option.isSome_iff_exists.mp (hsucc r hr hdoc hemb)
    have hrf : r ∈ fetch_chunks_without_embeddings docId db := by
      unfold fetch_chunks_without_embeddings
      rw [List.mem_filter]
      exact ⟨hr, by simp [hdoc, hemb]⟩
    obtain ⟨l₁, l₂, hdec⟩ := List.append_of_mem hrf
    have hsubl : List.Sublist
        ((fetch_chunks_without_embeddings docId db).map (fun c => c.id))
        (db.chunks.map (fun c => c.id)) :=
      (List.filter_sublist _).map _
    have hnf := hnodup.sublist hsubl
    rw [hdec, List.map_append, List.map_cons] at hnf
    obtain ⟨hn1, hn2, hdisj⟩ := List.nodup_append.mp hnf
    have h₂ : ∀ c ∈ l₂, c.id ≠ r.id := by
      intro c hc hcr
      exact (List.nodup_cons.mp hn2).1 (hcr ▸ List.mem_map_of_mem _ hc)
    have h₁ : ∀ c ∈ l₁, c.id ≠ r.id := by
      intro c hc hcr
      exact hdisj (List.mem_map_of_mem _ hc)
        (by rw [hcr]; exact List.mem_cons_self _ _)
    rw [hdec, List.foldl_append, List.foldl_cons]
    rw [rowUpd_untouched oracle l₁ r h₁]
    have hstep : rowUpd oracle r r = { r with embedding := some v } := by
      unfold rowUpd; rw [hv]; simp
    rw [hstep]
    rw [rowUpd_untouched oracle l₂ { r with embedding := some v }
      (fun c hc => h₂ c hc)]
    rw [hv]
  · rw [if_neg hp]
    apply rowUpd_untouched
    intro c hc hcr
    unfold fetch_chunks_without_embeddings at hc
    have hcm := List.mem_filter.mp hc
    have hceq : c = r := List.inj_on_of_nodup_map hnodup hcm.1 hr hcr
    apply hp
    have := hcm.2
    rw [hceq] at this
    simpa using this

end ChunkStore

open ChunkStore in
/-- Claim C4: a chunk whose embedding call fails is still inserted, with
its embedding column unset (no placeholder vector); a subsequent
process_embeddings(document_id) pass — under unique chunk ids and an
embedding oracle that now succeeds on the document's unset chunks —
rewrites the chunks table so that exactly the document's unset rows
receive their embedding and every row that already has one (and every
other document's row) is untouched. -/
theorem claim4_unset_embedding_and_backfill_frame
    (oracle : String → Option (List Int)) (docId : Nat) (fn : String) (db : DB)
    (item : ChunkItem) (eid txt : String) (md : ChunkItemMeta)
    (hid : item.element_id = some eid) (htxt : item.text = some txt)
    (hmd : item.metadata = some md)
    (hfail : encode_text_to_vector oracle txt = none)
    (hnodup : (db.chunks.map (fun c => c.id)).Nodup)
    (hsucc : ∀ c ∈ db.chunks, c.document_id = docId → c.embedding = none →
      (encode_text_to_vector oracle c.text).isSome = true) :
    insertOneChunk oracle docId fn db item = some { db with
      chunks := db.chunks ++ [{ id := db.nextChunkId, element_id := eid,
                                text := txt, document_id := docId,
                                filetype := md.filetype,
                                languages := md.languages.getD [],
                                start_page_number := md.page_number,
                                end_page_number := md.page_number,
                                orig_elements := md.orig_elements,
                                source_file := fn, embedding := none }],
      nextChunkId := db.nextChunkId + 1 } ∧
    (process_embeddings oracle docId db).chunks =
      db.chunks.map (fun r =>
        if r.document_id = docId ∧ r.embedding = none
        then { r with embedding := encode_text_to_vector oracle r.text } else r) := by
  constructor
  · unfold insertOneChunk
    rw [htxt, hmd, hid]
    simp only [hfail]
  · unfold process_embeddings
    rw [foldl_upd_chunks]
    exact List.map_congr_left
      (fun r hr => backfill_pointwise oracle docId db hnodup hsucc r hr)

namespace ChunkStore

/-- Embedding oracle failing exactly on the text "bad", used by the
claim C4 witness. -/
def oracleW4 : String → Option (List Int) := fun s => if s = "bad" then none else some [7]

/-- A chunk row that already has an embedding. -/
def rowSet : ChunkRow := ⟨1, "a", "y", 1, none, [], none, none, none, "f", some [5]⟩

/-- A chunk row of document 1 with an unset embedding. -/
def rowUnset : ChunkRow := ⟨2, "b", "z", 1, none, [], none, none, none, "f", none⟩

/-- A chunk row of another document with an unset embedding. -/
def rowOther : ChunkRow := ⟨3, "c", "bad", 2, none, [], none, none, none, "g", none⟩

/-- The store the claim C4 witness starts from. -/
def dbW4 : DB := ⟨[⟨1, "f"⟩], 2, [rowSet, rowUnset, rowOther], 4⟩

/-- An item whose text the witness oracle fails to embed. -/
def itemW4 : ChunkItem := ⟨some "e", some "bad", some ⟨none, none, none, none⟩⟩

end ChunkStore

open ChunkStore in
/-- Witness for claim C4 at a concrete store with an already-embedded
row, an unset row of the document and an unset row of another document. -/
theorem claim4_witness :
    insertOneChunk oracleW4 1 "f" dbW4 itemW4 = some { dbW4 with
      chunks := dbW4.chunks ++ [{ id := dbW4.nextChunkId, element_id := "e",
                                  text := "bad", document_id := 1,
                                  filetype := none, languages := [],
                                  start_page_number := none,
                                  end_page_number := none,
                                  orig_elements := none,
                                  source_file := "f", embedding := none }],
      nextChunkId := dbW4.nextChunkId + 1 } ∧
    (process_embeddings oracleW4 1 dbW4).chunks =
      dbW4.chunks.map (fun r =>
        if r.document_id = 1 ∧ r.embedding = none
        then { r with embedding := encode_text_to_vector oracleW4 r.text } else r) :=
  claim4_unset_embedding_and_backfill_frame oracleW4 1 "f" dbW4 itemW4 "e" "bad"
    ⟨none, none, none, none⟩ rfl rfl rfl (by rfl) (by decide) (by decide)

namespace RagApi

/-- A row returned by the match_documents2 similarity RPC. -/
structure MatchRow where
  id : Nat
  text : String
  similarity : Int
  start_page_number : Option Nat
deriving DecidableEq, Repr

/-- The chunk record query_similar_chunks builds from one RPC row. -/
structure RetrievedChunk where
  id : Nat
  text : String
  similarity : Int
  page_number : Option Nat
deriving DecidableEq, Repr

/-- query_similar_chunks (rag_functions.py): call the similarity RPC
(threshold -0.2, top 5, restricted to the document; these live inside the
oracle's arguments); a raised exception (oracle none) is caught and
yields [], empty response data yields [], otherwise rows are mapped into
result records. -/
def query_similar_chunks (rpcOracle : List Int → Nat → Option (List MatchRow))
    (embedding : List Int) (document_id : Nat) : List RetrievedChunk :=
  match rpcOracle embedding document_id with
  | none => []
  | some rows =>
    if rows = [] then []
    else rows.map (fun r => ⟨r.id, r.text, r.similarity, r.start_page_number⟩)

/-- get_openai_embedding (rag_functions.py): the embedding endpoint; a
raised exception is caught and returned as none. -/
def get_openai_embedding (embOracle : String → Option (List Int))
    (prompt : String) : Option (List Int) :=
  embOracle prompt

/-- One extraction variable of the static catalogue. -/
structure Variable where
  name : String
  retrieve_question : String
  generate_question : String
deriving DecidableEq, Repr

/-- The generation prompt process_variables builds from the variable's
generate_question and the concatenated chunk context. -/
def generationPrompt (generate_question context : String) : String :=
  "Based on the following context, " ++ generate_question ++
    "\n\nContext:\n" ++ context ++ "\n\nAnswer:"

/-- Python str.strip(): drop leading and trailing whitespace. -/
def pyStrip (s : String) : String :=
  ⟨((s.data.dropWhile RuleTagger.isPySpace).reverse.dropWhile
      RuleTagger.isPySpace).reverse⟩

/-- The body of the process_variables loop for one variable: embed its
retrieve_question (failure: skip), fetch similar chunks (none: skip),
build the context and prompt, generate (failure: skip) and record the
stripped answer under the variable's name. -/
def processOneVariable (embOracle : String → Option (List Int))
    (rpcOracle : List Int → Nat → Option (List MatchRow))
    (genOracle : String → Option String) (document_id : Nat) (v : Variable) :
    Option (String × String) :=
  match get_openai_embedding embOracle v.retrieve_question with
  | none => none
  | some embedding =>
    let chunks := query_similar_chunks rpcOracle embedding document_id
    if chunks = [] then none
    else
      let context := String.intercalate "\n" (chunks.map (fun c => c.text))
      let prompt := generationPrompt v.generate_question context
      match genOracle prompt with
      | none => none
      | some answer => some (v.name, pyStrip answer)

/-- Python dict assignment results[k] = a, preserving insertion order. -/
def dinsert (k a : String) (l : List (String × String)) : List (String × String) :=
  if l.any (fun p => p.1 == k) then l.map (fun p => if p.1 == k then (k, a) else p)
  else l ++ [(k, a)]

/-- process_variables (rag_functions.py): sequentially process each
variable; a skipped or failed variable contributes nothing and the loop
continues with the next one. -/
def process_variables (embOracle : String → Option (List Int))
    (rpcOracle : List Int → Nat → Option (List MatchRow))
    (genOracle : String → Option String) (vars : List Variable)
    (document_id : Nat) : List (String × String) :=
  vars.foldl (fun results v =>
    match processOneVariable embOracle rpcOracle genOracle document_id v with
    | none => results
    | some ka => dinsert ka.1 ka.2 results) []

/-- The three failure modes of one variable all make its iteration yield
nothing: embedding failure, an empty similarity result, or generation
failure. -/
lemma processOneVariable_none (embOracle : String → Option (List Int))
    (rpcOracle : List Int → Nat → Option (List MatchRow))
    (genOracle : String → Option String) (document_id : Nat) (v : Variable)
    (hfail : get_openai_embedding embOracle v.retrieve_question = none
      ∨ (∃ emb, get_openai_embedding embOracle v.retrieve_question = some emb ∧
          query_similar_chunks rpcOracle emb document_id = [])
      ∨ (∃ emb, get_openai_embedding embOracle v.retrieve_question = some emb ∧
          query_similar_chunks rpcOracle emb document_id ≠ [] ∧
          genOracle (generationPrompt v.generate_question
            (String.intercalate "\n"
              ((query_similar_chunks rpcOracle emb document_id).map
                (fun c => c.text)))) = none)) :
    processOneVariable embOracle rpcOracle genOracle document_id v = none := by
  unfold processOneVariable
  rcases hfail with h | ⟨emb, h1, h2⟩ | ⟨emb, h1, h2, h3⟩
  · rw [h]
  · rw [h1]
    simp [h2]
  · rw [h1]
    simp only [if_neg h2]
    rw [h3]

/-- A key of the dict after an assignment is the assigned key or a key
already present. -/
lemma dinsert_keys (k a : String) (l : List (String × String)) (x : String)
    (hx : x ∈ (dinsert k a l).map (fun p => p.1)) :
    x = k ∨ x ∈ l.map (fun p => p.1) := by
  unfold dinsert at hx
  by_cases hany : (l.any (fun p => p.1 == k)) = true
  · rw [if_pos hany, List.map_map] at hx
    obtain ⟨p, hp, hpx⟩ := List.mem_map.mp hx
    simp only [Function.comp_apply] at hpx
    by_cases hpk : p.1 = k
    · left
      rw [if_pos (by simpa using hpk)] at hpx
      exact hpx.symm
    · right
      rw [if_neg (by simpa using hpk)] at hpx
      exact hpx ▸ List.mem_map_of_mem _ hp
  · rw [if_neg hany, List.map_append] at hx
    rcases List.mem_append.mp hx with h | h
    · exact Or.inr h
    · left
      simpa using h

/-- Every key the loop ends up with is either a key of the starting dict
or the name of a variable whose iteration succeeded. -/
lemma process_variables_keys (embOracle : String → Option (List Int))
    (rpcOracle : List Int → Nat → Option (List MatchRow))
    (genOracle : String → Option String) (document_id : Nat)
    (vars : List Variable) (init : List (String × String)) (x : String)
    (hx : x ∈ (vars.foldl (fun results v =>
        match processOneVariable embOracle rpcOracle genOracle document_id v with
        | none => results
        | some ka => dinsert ka.1 ka.2 results) init).map (fun p => p.1)) :
    x ∈ init.map (fun p => p.1) ∨
      ∃ w ∈ vars, w.name = x ∧
        processOneVariable embOracle rpcOracle genOracle document_id w ≠ none := by
  induction vars generalizing init with
  | nil => exact Or.inl hx
  | cons v vars ih =>
    simp only [List.foldl_cons] at hx
    cases hv : processOneVariable embOracle rpcOracle genOracle document_id v with
    | none =>
      rw [hv] at hx
      rcases ih init hx with h | ⟨w, hw, hwx, hwp⟩
      · exact Or.inl h
      · exact Or.inr ⟨w, List.mem_cons_of_mem v hw, hwx, hwp⟩
    | some ka =>
      rw [hv] at hx
      rcases ih (dinsert ka.1 ka.2 init) hx with h | ⟨w, hw, hwx, hwp⟩
      · rcases dinsert_keys ka.1 ka.2 init x h with h' | h'
        · refine Or.inr ⟨v, List.mem_cons_self v vars, ?_, by simp [hv]⟩
          have hname : ka.1 = v.name := by
            unfold processOneVariable at hv
            cases hemb : get_openai_embedding embOracle v.retrieve_question with
            | none => rw [hemb] at hv; cases hv
            | some emb =>
              rw [hemb] at hv
              simp only at hv
              by_cases hc : query_similar_chunks rpcOracle emb document_id = []
              · rw [if_pos hc] at hv; cases hv
              · rw [if_neg hc] at hv
                cases hgen : genOracle (generationPrompt v.generate_question
                    (String.intercalate "\n"
                      ((query_similar_chunks rpcOracle emb document_id).map
                        (fun c => c.text)))) with
                | none => rw [hgen] at hv; cases hv
                | some ans =>
                  rw [hgen] at hv
                  cases hv
                  rfl
          rw [← hname, h']
        · exact Or.inl h'
      · exact Or.inr ⟨w, List.mem_cons_of_mem v hw, hwx, hwp⟩

end RagApi

open RagApi in
/-- Claim C3: a variable whose similarity search returns zero chunks, or
whose embedding or generation call fails, contributes nothing: its name
does not occur among the keys of the results mapping (given that no
other variable shares its name), and the remaining variables are
processed exactly as if it were absent — the failure never aborts the
extraction. -/
theorem claim3_failed_variable_absent (embOracle : String → Option (List Int))
    (rpcOracle : List Int → Nat → Option (List MatchRow))
    (genOracle : String → Option String) (document_id : Nat)
    (vs₁ vs₂ : List Variable) (v : Variable)
    (hfail : get_openai_embedding embOracle v.retrieve_question = none
      ∨ (∃ emb, get_openai_embedding embOracle v.retrieve_question = some emb ∧
          query_similar_chunks rpcOracle emb document_id = [])
      ∨ (∃ emb, get_openai_embedding embOracle v.retrieve_question = some emb ∧
          query_similar_chunks rpcOracle emb document_id ≠ [] ∧
          genOracle (generationPrompt v.generate_question
            (String.intercalate "\n"
              ((query_similar_chunks rpcOracle emb document_id).map
                (fun c => c.text)))) = none))
    (hname : ∀ w ∈ vs₁ ++ vs₂, w.name ≠ v.name) :
    process_variables embOracle rpcOracle genOracle (vs₁ ++ v :: vs₂) document_id =
      process_variables embOracle rpcOracle genOracle (vs₁ ++ vs₂) document_id ∧
    v.name ∉ (process_variables embOracle rpcOracle genOracle (vs₁ ++ v :: vs₂)
      document_id).map (fun p => p.1) := by
  have hnone := processOneVariable_none embOracle rpcOracle genOracle document_id v hfail
  have heq : process_variables embOracle rpcOracle genOracle (vs₁ ++ v :: vs₂)
      document_id =
      process_variables embOracle rpcOracle genOracle (vs₁ ++ vs₂) document_id := by
    unfold process_variables
    simp only [List.foldl_append, List.foldl_cons, hnone]
  refine ⟨heq, fun hmem => ?_⟩
  unfold process_variables at hmem
  rcases process_variables_keys embOracle rpcOracle genOracle document_id
      (vs₁ ++ v :: vs₂) [] v.name hmem with h | ⟨w, hw, hwx, hwp⟩
  · simp at h
  · rcases List.mem_append.mp hw with hw₁ | hw₂
    · exact hname w (List.mem_append_left _ hw₁) hwx
    · rcases List.mem_cons.mp hw₂ with hwv | hw₂
      · exact hwp (hwv ▸ hnone)
      · exact hname w (List.mem_append_right _ hw₂) hwx

namespace RagApi

/-- Embedding oracle for the claim C3 witness: fails on the retrieval
question "bad q". -/
def embOracleW3 : String → Option (List Int) :=
  fun s => if s = "bad q" then none else some [2]

/-- RPC oracle for the claim C3 witness: one matching chunk. -/
def rpcOracleW3 : List Int → Nat → Option (List MatchRow) :=
  fun _ _ => some [⟨1, "ctx", 1, some 1⟩]

/-- Generation oracle for the claim C3 witness: always answers. -/
def genOracleW3 : String → Option String := fun _ => some " A1 "

/-- The failing variable of the claim C3 witness. -/
def varBadW3 : Variable := ⟨"deal_name", "bad q", "g q"⟩

/-- A succeeding variable of the claim C3 witness. -/
def varOkW3 : Variable := ⟨"license_fee", "ok q", "g q2"⟩

end RagApi

open RagApi in
/-- Witness for claim C3 at concrete oracles: the embedding call for the
variable deal_name fails, the mapping equals the one produced without it
and lacks the key deal_name, while license_fee is still processed. -/
theorem claim3_witness :
    (process_variables embOracleW3 rpcOracleW3 genOracleW3 ([] ++ varBadW3 :: [varOkW3]) 7 =
      process_variables embOracleW3 rpcOracleW3 genOracleW3 ([] ++ [varOkW3]) 7 ∧
    "deal_name" ∉ (process_variables embOracleW3 rpcOracleW3 genOracleW3
      ([] ++ varBadW3 :: [varOkW3]) 7).map (fun p => p.1)) ∧
    process_variables embOracleW3 rpcOracleW3 genOracleW3 ([] ++ [varOkW3]) 7 =
      [("license_fee", "A1")] := by
  refine ⟨claim3_failed_variable_absent embOracleW3 rpcOracleW3 genOracleW3 7
    [] [varOkW3] varBadW3 (Or.inl (by decide)) (by decide), by decide⟩

namespace Ingest

/-- An executed pipeline stage, as recorded in order of execution;
annotating carries the file it runs on. -/
inductive StageEvent where
  | partitioning : StageEvent
  | enriching : StageEvent
  | chunking : StageEvent
  | cleanup : StageEvent
  | annotating : String → StageEvent
deriving DecidableEq, Repr

/-- Outcomes of the external stage calls (none is success, some e a
raised exception with message e), plus the partition-JSON existence
check process_single_pdf performs. -/
structure StageOracles where
  partitionOutcome : Option String
  partitionJsonExists : Bool
  enrichOutcome : Option String
  chunkOutcome : Option String
  annotateOutcome : String → Option String

/-- PDFProcessor.process_pdfs (helpers/pdf_ingest.py): partition; enrich
only if no failure so far; chunk only if no failure so far; then always
clean up extensions and annotate every file, each step recording its
execution and any failure clearing the success flag. -/
def process_pdfs (o : StageOracles) (_input_dir : String) (pdf_files : List String) :
    Bool × List StageEvent :=
  let ev₀ := [StageEvent.partitioning]
  let status₀ := o.partitionOutcome.isNone
  let step₁ :=
    if status₀ then (o.enrichOutcome.isNone, ev₀ ++ [StageEvent.enriching])
    else (status₀, ev₀)
  let step₂ :=
    if step₁.1 then (o.chunkOutcome.isNone, step₁.2 ++ [StageEvent.chunking])
    else step₁
  let withCleanup := (step₂.1, step₂.2 ++ [StageEvent.cleanup])
  pdf_files.foldl
    (fun se f => (se.1 && (o.annotateOutcome f).isNone,
                  se.2 ++ [StageEvent.annotating f]))
    withCleanup

/-- PDFProcessor.process_single_pdf (helpers/pdf_ingest.py): partition,
check the partition JSON exists, enrich, chunk, clean up and annotate,
returning (1, Success) or (0, stage error message) at the first failing
stage, with the stages executed so far. -/
def process_single_pdf (o : StageOracles) (pdf_path : String) :
    (Nat × String) × List StageEvent :=
  let ev := [StageEvent.partitioning]
  match o.partitionOutcome with
  | some e => ((0, "Ingest failed: " ++ e), ev)
  | none =>
    if ¬ o.partitionJsonExists then
      ((0, "Partition JSON not found at " ++ pdf_path ++ ".json"), ev)
    else
      let ev := ev ++ [StageEvent.enriching]
      match o.enrichOutcome with
      | some e => ((0, "Enrichment failed: " ++ e), ev)
      | none =>
        let ev := ev ++ [StageEvent.chunking]
        match o.chunkOutcome with
        | some e => ((0, "Chunking failed: " ++ e), ev)
        | none =>
          let ev := ev ++ [StageEvent.cleanup, StageEvent.annotating pdf_path]
          match o.annotateOutcome pdf_path with
          | some e => ((0, "PDF annotation failed: " ++ e), ev)
          | none => ((1, "Success"), ev)

/-- The annotation loop only appends annotating events to the trace. -/
lemma process_pdfs_fold_trace (o : StageOracles) (files : List String)
    (init : Bool × List StageEvent) :
    (files.foldl
      (fun se f => (se.1 && (o.annotateOutcome f).isNone,
                    se.2 ++ [StageEvent.annotating f]))
      init).2 = init.2 ++ files.map StageEvent.annotating := by
  induction files generalizing init with
  | nil => simp
  | cons f files ih =>
    simp only [List.foldl_cons, List.map_cons]
    rw [ih]
    simp

/-- Stage oracles with a failing partitioner, used by the claim C7
counterexample and witness. -/
def oraclesFailPart : StageOracles := ⟨some "boom", true, none, none, fun _ => none⟩

end Ingest

open Ingest in
/-- Claim C7, counterexample: after a partitioning failure, process_pdfs
still executes the Annotating stage for each file (the annotation loop
is not guarded by the success flag), so 'none of Enriching, Chunking, or
Annotating executes' fails for the batch entry point. -/
theorem claim7_counterexample :
    StageEvent.annotating "a.pdf" ∈
      (process_pdfs oraclesFailPart "input" ["a.pdf"]).2 := by
  decide

open Ingest in
/-- Claim C7, amended: a partitioning failure prevents the Enriching and
Chunking stages in process_pdfs, and makes process_single_pdf stop at
once — returning the ingest failure with only the partitioning stage
executed, so no enriching, chunking or annotating happens there; the
batch entry point process_pdfs, however, still runs cleanup and the
annotation pass. -/
theorem claim7_amended_partition_failure_halts
    (o : StageOracles) (dir path : String) (files : List String) (e : String)
    (hp : o.partitionOutcome = some e) :
    StageEvent.enriching ∉ (process_pdfs o dir files).2 ∧
    StageEvent.chunking ∉ (process_pdfs o dir files).2 ∧
    process_single_pdf o path = ((0, "Ingest failed: " ++ e), [StageEvent.partitioning]) := by
  unfold process_pdfs process_single_pdf
  rw [hp]
  simp only [Option.isNone_some, Bool.false_eq_true, if_false, process_pdfs_fold_trace]
  refine ⟨?_, ?_, trivial⟩
  · intro h
    rcases List.mem_append.mp h with h | h
    · simp at h
    · obtain ⟨f, _, hf⟩ := List.mem_map.mp h
      cases hf
  · intro h
    rcases List.mem_append.mp h with h | h
    · simp at h
    · obtain ⟨f, _, hf⟩ := List.mem_map.mp h
      cases hf

open Ingest in
/-- Witness for the amended claim C7 at the concrete failing oracles. -/
theorem claim7_amended_witness :
    StageEvent.enriching ∉ (process_pdfs oraclesFailPart "input" ["a.pdf"]).2 ∧
    StageEvent.chunking ∉ (process_pdfs oraclesFailPart "input" ["a.pdf"]).2 ∧
    process_single_pdf oraclesFailPart "x.pdf" =
      ((0, "Ingest failed: " ++ "boom"), [StageEvent.partitioning]) :=
  claim7_amended_partition_failure_halts oraclesFailPart "input" "x.pdf"
    ["a.pdf"] "boom" rfl

namespace RagApi

/-- The upload directory contents. -/
structure FS where
  files : List String
deriving DecidableEq, Repr

/-- The outcome of the upload endpoint: the success JSON (document_id
and processing_results) or an HTTPException with status code and
detail. -/
inductive UploadResult where
  | success : Nat → List (String × String) → UploadResult
  | httpError : Nat → String → UploadResult
deriving DecidableEq, Repr

/-- Writing the uploaded bytes to UPLOAD_DIR / filename (an existing
file is overwritten in place). -/
def fsSave (fs : FS) (filename : String) : FS :=
  if filename ∈ fs.files then fs else ⟨fs.files ++ [filename]⟩

/-- file_path.unlink(): the file is removed from the directory. -/
def fsUnlink (fs : FS) (filename : String) : FS :=
  ⟨fs.files.filter (fun g => !(g == filename))⟩

/-- file.filename.lower().endswith('.pdf') (ASCII lowering). -/
def endsWithPdf (filename : String) : Bool :=
  (".pdf".data).isSuffixOf (filename.data.map Char.toLower)

/-- The static extraction-variable catalogue upload_file passes to
process_variables, transcribed from rag_functions.py. -/
def extraction_variables : List RagApi.Variable := [
  ⟨"deal_name",
   "Find text containing <PRODUCT> tags that describe the agreement type, or <LEGAL> tags that contain the word 'Agreement'. Focus on the first few paragraphs of the document.",
   "Extract ONLY the core agreement type (e.g. 'License Agreement', 'Service Agreement'). If you see <PRODUCT>License Agreement</PRODUCT> or <LEGAL>License Agreement</LEGAL>, return just 'License Agreement' without any party names or dates."⟩,
  ⟨"license_period",
   "Find text containing:\n                            1. Tables or definitions that mention 'Pay License Period' or 'License Period'\n                            2. Look for <examples> tags containing date ranges\n                            3. Look for <DATE> tags containing date ranges\n                            4. Look for text that shows examples of license periods in DD/MM/YYYY-DD/MM/YYYY format\n                            5. Focus on text that defines or shows examples of license periods\n                            \n                            Example text to match:\n                            - <examples>\"01/07/2020-05/01/2023\"</examples>\n                            - <definition>Pay License Period</definition>\n                            - <DATE>01/07/2020-05/01/2023</DATE>\n                            - Tables showing license period dates",
   "Extract ONLY the exact license period date range. \n\n                            Rules:\n                            1. If you find a date range in <examples> tags within a Pay License Period definition, use that exact value\n                            2. If you find a date range in <DATE> tags, use that exact value\n                            3. Return the date range in exactly the format shown (e.g., '01/07/2020-05/01/2023')\n                            4. Do not modify or reformat the dates\n                            5. Do not include any explanatory text\n                            6. If multiple periods exist, prioritize the Pay License Period\n                            7. Look for date ranges in both <examples> and <DATE> tags\n                            8. If no specific date range is found, return 'Not found'\n\n                            Example matches:\n                            Input: '<examples>\"01/07/2020-05/01/2023\"</examples>'\n                            Output: '01/07/2020-05/01/2023'\n                            \n                            Input: '<DATE>01/07/2020-05/01/2023</DATE>'\n                            Output: '01/07/2020-05/01/2023'"⟩,
  ⟨"license_fee",
   "Find text containing <PAYMENT> tags or numbers with currency symbols (€, $) near terms like 'fee', 'payment', 'amount', 'cost', or 'price'. Also look for numbers followed by /H or per hour.",
   "Extract ONLY the exact payment amount with its currency symbol and rate (e.g., €3.000,00/H or €42.000,00). Return the full amount exactly as written, NOT including any hourly rates, just the total sums."⟩,
  ⟨"contract_status",
   "Find text containing <STATUS> tags or <LEGAL> tags that indicate the agreement's current state. Also look for phrases like 'Read, Agreed and executed', 'terminated', 'active', or text about contract effectiveness and termination.",
   "Based on the tagged text, determine and return ONLY one of these status values:\n                            - 'Active' if the agreement is currently in force\n                            - 'Terminated' if the agreement shows signs of being completed, executed, or ended (including phrases like 'Read, Agreed and executed')\n                            - 'Draft' if the agreement appears to be in draft form\n                            - 'Not found' if the status cannot be determined\n\n                            For example:\n                            - <STATUS>Read, Agreed and executed</STATUS> should return 'Terminated'\n                            - <STATUS>Active</STATUS> should return 'Active'\n                            - <LEGAL>This agreement is currently in effect</LEGAL> should return 'Active'"⟩,
  ⟨"licensor",
   "Find text containing:\n                            1. <PARTY> tags with the word 'LICENSOR' in them\n                            2. Text near phrases like 'hereinafter the \"licensor\"'\n                            3. Text in the opening paragraphs where parties are first introduced\n                            \n                            Focus on the agreement's header section where parties are first defined.",
   "Extract ONLY the company/entity name that is identified as the licensor. \n                            \n                            Rules:\n                            1. Look for text between <PARTY> tags that appears BEFORE 'hereinafter the \"licensor\"'\n                            2. Return the exact name as it appears in the document\n                            3. Do not include any additional text or explanations\n                            4. If multiple matches exist, prioritize the one that appears first in the document header\n                            5. If no clear licensor is found, return 'Not found'"⟩,
  ⟨"licensee",
   "Find text containing <COMPANY>RSG Media</COMPANY> where it is first introduced as a party in the agreement. Look specifically at the beginning of the document where parties are defined.",
   "Return ONLY 'RSG Media' if it appears as a party to the agreement. Look for text patterns like 'hereinafter \"RSG Media\"' or where RSG Media is introduced as the second party after the licensor."⟩,
  ⟨"licensor_address",
   "Find text containing <ADDRESS> tags that appear IMMEDIATELY AFTER the licensor is named and BEFORE the word 'AND' that introduces the second party.",
   "Extract ONLY the first address that appears after the licensor is named and before the second party is introduced. Return exactly what appears between the <ADDRESS> tags in that location only."⟩,
  ⟨"licensee_address",
   "Find text containing <ADDRESS> tags that appear near <COMPANY>RSG Media</COMPANY> tags.",
   "Extract ONLY the complete address found between <ADDRESS> tags that appears with RSG Media's details."⟩,
  ⟨"document_language",
   "Find text containing <PRODUCT> tags with 'Language' or 'language version' mentions, or <LEGAL> tags discussing document languages.",
   "List ALL languages mentioned as official document versions. For Italian language mentions, return just 'Italian'. Return only the language name."⟩,
  ⟨"territory",
   "Find text containing <TERRITORY> tags that specify geographical regions, especially near phrases like 'Licensed territory' or 'Territory'.",
   "Extract ALL territories listed between <TERRITORY> tags. Format as a bullet list with each territory on a new line starting with '- '. Remove any '(the \"Territory\")' type annotations."⟩,
  ⟨"rights_granted",
   "Find text containing <RIGHTS> tags or <PRODUCT> tags that describe distribution rights, licenses, or permissions. \n                            Look for:\n                            - Text near terms like 'Distribution', 'rights granted', 'license', 'exploitation'\n                            - Sections describing VOD, SVOD, PPV, EST, DTR, DTO\n                            - Text containing <RIGHTS> tags that mention viewing or distribution methods\n                            - Sections discussing theatrical, television, or home entertainment rights\n                            - Text about linear and non-linear distribution\n                            - Sections mentioning catch-up rights or near video on demand\n                            Focus especially on text that appears in licensing terms or rights sections.",
   "Extract ALL rights granted, including distribution and exploitation rights. Format as a bullet list where each line starts with '- '.\n\n                            Include rights such as:\n                            - Download to Rent\n                            - DTO (Download to Own)\n                            - SVOD (Subscription Video on Demand)\n                            - FVOD (Free Video on Demand)\n                            - Near Video on Demand\n                            - Catch Up rights\n                            - PPV (Pay Per View)\n                            - Television rights\n                            - Theatrical rights\n                            - Linear/Non-Linear Distribution\n                            - EST (Electronic Sell-Through)\n                            - Home Entertainment\n                            - DTR (Download to Rent)\n\n                            For example:\n                            - Download to Rent\n                            - SVOD\n                            - Pay Per View\n                            \n                            Return ALL rights mentioned in the text, preserving the exact terminology used in the document. Include both abbreviated (e.g., 'PPV') and full forms if both are mentioned."⟩,
  ⟨"contract_currency",
   "Find text containing <PAYMENT> tags with € symbols or text containing the word 'Euro' or 'euro'.",
   "Return ONLY 'EUR' if euro symbols (€) or the word 'euro/Euro' is found in the payment amounts or currency specifications."⟩,
  ⟨"due_date",
   "Find text containing <TERM> tags near payment terms, especially looking for text that mentions payment timing, days, or due dates. Focus on text that appears near <PAYMENT> tags and mentions of invoice payment terms.",
   "Extract ONLY the exact payment timing terms. If you find a specific payment schedule like '90 [ninety] days end month from the start avail date', return it exactly as written.\n                            \n                            For example:\n                            - If you see '<TERM>90 [ninety] days end month</TERM> from the start avail date of the License Period' return exactly that\n                            - If you see other specific payment timing terms, return them exactly as written\n                            - If no specific payment timing is found, return 'Not found'\n                            \n                            Do not include the payment amounts or other terms - focus only on the timing/due date information."⟩,
  ⟨"definitions",
   "Find text containing definitions by looking for these specific patterns:\n                            1. Text containing 'means' or 'shall mean' near <PRODUCT>, <TERM>, or <RIGHTS> tags\n                            2. Text matching pattern '[Term]: means' or '[Term] shall mean'\n                            3. Text containing 'Extended Catch-Up', 'Catch Up', 'Video on Demand', or similar technical terms followed by their definitions\n                            4. Text blocks starting with bullet points or numbers that define technical terms\n                            5. Text containing timing specifications like '48 hours', '30 day period' near technical terms\n                            6. Sections titled 'Definitions', 'Terms', or 'Glossary'\n                            7. Look for definitions related to:\n                               - Catch-Up services\n                               - Video on Demand\n                               - Storage periods\n                               - Viewing periods\n                               - Playback rights\n                               - Technical specifications\n                            \n                            Example text to match:\n                            - \"Extended Catch-Up: means the ability to store...\"\n                            - \"<PRODUCT>Term</PRODUCT> means...\"\n                            - \"1.1 [Term] shall mean...\"\n                            - \"• Technical Term: means...\"\n                            ",
   "Extract and format ALL definitions as a bulleted list. For each definition:\n                            1. Start with \"• \"\n                            2. Include the term followed by \": \" (colon and space)\n                            3. Include the complete definition including all technical specifications and time periods\n                            4. Preserve exact timing specifications (e.g., \"48 hours\", \"30 day period\")\n                            5. Keep all technical details exactly as written\n                            \n                            Format each definition exactly like this:\n                            • Term: complete definition\n                            \n                            Example of correct formatting:\n                            • Extended Catch-Up: means the ability to store the Audiovisual Work on a connected device for unconnected playback within 48 hours from initial playback (Viewing Period) within a 30 day storage period\n                            \n                            Important:\n                            - Include ALL definitions found, even if they appear outside a dedicated definitions section\n                            - Keep technical specifications and timing details exactly as written\n                            - Don't summarize or modify the definitions\n                            - Include definitions even if they're part of numbered lists or bullet points\n                            - Return 'Not found' if no definitions matching these patterns are found"⟩]

/-- upload_file (rag_functions.py).  Rejects a non-.pdf filename with
HTTP 400 before anything is written; otherwise saves the file, runs
process_single_pdf, and on full success (status 1, chunk JSON present,
insert_chunks yielding a document id) returns the extraction results;
every other path raises inside the try block — the read failure of
insert_chunks propagates its message, the explicit
HTTPException(500, error_msg) stringifies as '500: ' ++ error_msg — and
the handler deletes the saved file and returns HTTP 500 carrying the
exception's message. -/
def upload_file (o : Ingest.StageOracles) (chunkJsonExists : Bool)
    (content : Option (List ChunkStore.ChunkItem))
    (embOracle : String → Option (List Int))
    (rpcOracle : List Int → Nat → Option (List MatchRow))
    (genOracle : String → Option String)
    (db : ChunkStore.DB) (fs : FS) (filename : String) :
    UploadResult × FS × ChunkStore.DB :=
  if ¬ endsWithPdf filename then
    (UploadResult.httpError 400 "Only PDF files are allowed", fs, db)
  else
    let fs₁ := fsSave fs filename
    let statusMsg := (Ingest.process_single_pdf o filename).1
    if statusMsg.1 = 1 ∧ chunkJsonExists = true then
      match ChunkStore.insert_chunks embOracle (filename ++ ".json") content db with
      | Except.error e =>
        (UploadResult.httpError 500 e, fsUnlink fs₁ filename, db)
      | Except.ok (none, db₁) =>
        (UploadResult.httpError 500 ("500: " ++ statusMsg.2), fsUnlink fs₁ filename, db₁)
      | Except.ok (some document_id, db₁) =>
        (UploadResult.success document_id
          (process_variables embOracle rpcOracle genOracle extraction_variables
            document_id),
         fs₁, db₁)
    else
      (UploadResult.httpError 500 ("500: " ++ statusMsg.2), fsUnlink fs₁ filename, db)

/-- Whether insert_chunks succeeded with a document id. -/
def insertOkSome (r : Except String (Option Nat × ChunkStore.DB)) : Bool :=
  match r with
  | Except.ok (some _, _) => true
  | _ => false

/-- After unlinking a filename it is gone from the directory. -/
lemma fsUnlink_not_mem (fs : FS) (filename : String) :
    filename ∉ (fsUnlink fs filename).files := by
  intro h
  unfold fsUnlink at h
  have := (List.mem_filter.mp h).2
  simp at this

end RagApi

open RagApi in
/-- Claim C9: a filename not ending in .pdf (case-insensitively) is
rejected by upload_file with HTTP 400 before anything is saved — the
upload directory (and the store) are returned exactly unchanged. -/
theorem claim9_non_pdf_rejected_before_save (o : Ingest.StageOracles)
    (chunkJsonExists : Bool) (content : Option (List ChunkStore.ChunkItem))
    (embOracle : String → Option (List Int))
    (rpcOracle : List Int → Nat → Option (List MatchRow))
    (genOracle : String → Option String)
    (db : ChunkStore.DB) (fs : FS) (filename : String)
    (h : endsWithPdf filename = false) :
    upload_file o chunkJsonExists content embOracle rpcOracle genOracle db fs filename =
      (UploadResult.httpError 400 "Only PDF files are allowed", fs, db) := by
  unfold upload_file
  simp [h]

open RagApi in
/-- Witness for claim C9 at the concrete filename doc.txt. -/
theorem claim9_witness :
    upload_file Ingest.oraclesFailPart true none ChunkStore.oracleNoneW
        rpcOracleW3 genOracleW3 ChunkStore.db0 ⟨["old.pdf"]⟩ "doc.txt" =
      (UploadResult.httpError 400 "Only PDF files are allowed",
        ⟨["old.pdf"]⟩, ChunkStore.db0) :=
  claim9_non_pdf_rejected_before_save Ingest.oraclesFailPart true none
    ChunkStore.oracleNoneW rpcOracleW3 genOracleW3 ChunkStore.db0
    ⟨["old.pdf"]⟩ "doc.txt" (by decide)

open RagApi in
/-- Claim C10: when the upload is a .pdf but processing does not reach
full success (failed stage, missing chunk JSON, unreadable chunk file or
no document id), upload_file deletes the saved file before returning an
HTTP 500 error carrying the exception's message: the final upload
directory is the saved-then-unlinked one, which no longer contains the
file. -/
theorem claim10_failed_upload_removes_file (o : Ingest.StageOracles)
    (chunkJsonExists : Bool) (content : Option (List ChunkStore.ChunkItem))
    (embOracle : String → Option (List Int))
    (rpcOracle : List Int → Nat → Option (List MatchRow))
    (genOracle : String → Option String)
    (db : ChunkStore.DB) (fs : FS) (filename : String)
    (hpdf : endsWithPdf filename = true)
    (hfail : ¬ ((Ingest.process_single_pdf o filename).1.1 = 1 ∧
        chunkJsonExists = true ∧
        insertOkSome (ChunkStore.insert_chunks embOracle (filename ++ ".json")
          content db) = true)) :
    ∃ d db',
      upload_file o chunkJsonExists content embOracle rpcOracle genOracle db fs
          filename =
        (UploadResult.httpError 500 d, fsUnlink (fsSave fs filename) filename, db') ∧
      filename ∉ (fsUnlink (fsSave fs filename) filename).files := by
  unfold upload_file
  rw [if_neg (by simp [hpdf])]
  by_cases hc : (Ingest.process_single_pdf o filename).1.1 = 1 ∧ chunkJsonExists = true
  · rw [if_pos hc]
    cases hi : ChunkStore.insert_chunks embOracle (filename ++ ".json") content db with
    | error e =>
      exact ⟨e, db, rfl, fsUnlink_not_mem _ _⟩
    | ok p =>
      obtain ⟨onat, db₁⟩ := p
      cases onat with
      | none =>
        exact ⟨_, db₁, rfl, fsUnlink_not_mem _ _⟩
      | some did =>
        exact absurd ⟨hc.1, hc.2, by rw [hi]; rfl⟩ hfail
  · rw [if_neg hc]
    exact ⟨_, db, rfl, fsUnlink_not_mem _ _⟩

open RagApi in
/-- Witness for claim C10 at a concrete failing upload: partitioning
fails for contract.pdf, the file saved into the directory is removed and
an HTTP 500 with the ingest failure message is returned. -/
theorem claim10_witness :
    ∃ d db',
      upload_file Ingest.oraclesFailPart true (some []) ChunkStore.oracleNoneW
          rpcOracleW3 genOracleW3 ChunkStore.db0 ⟨[]⟩ "contract.pdf" =
        (UploadResult.httpError 500 d,
         fsUnlink (fsSave ⟨[]⟩ "contract.pdf") "contract.pdf", db') ∧
      "contract.pdf" ∉ (fsUnlink (fsSave ⟨[]⟩ "contract.pdf") "contract.pdf").files :=
  claim10_failed_upload_removes_file Ingest.oraclesFailPart true (some [])
    ChunkStore.oracleNoneW rpcOracleW3 genOracleW3 ChunkStore.db0 ⟨[]⟩
    "contract.pdf" (by decide) (by decide)

namespace Enricher

/-- The metadata of a partitioned element; image_base64 none models the
key being absent (its access raises KeyError), some '' a present but
empty payload. -/
structure ElemMeta where
  image_base64 : Option String
deriving DecidableEq, Repr

/-- One partitioned document element; text none models a missing text
key. -/
structure PElement where
  typ : String
  text : Option String
  metadata : Option ElemMeta
deriving DecidableEq, Repr

/-- The body of the NarrativeText loop of enrich_json_with_summaries for
one element: read the text with default '', skip when falsy, otherwise
ask the tagging oracle; a raised exception (oracle none) is caught and
the element left as is. -/
def textStep (textOracle : String → Option String) (el : PElement) : PElement :=
  if el.typ == "NarrativeText" then
    let text_content := el.text.getD ""
    if text_content == "" then el
    else
      match textOracle text_content with
      | some enriched => { el with text := some enriched }
      | none => el
  else el

/-- The NarrativeText loop over the collection. -/
def textPass (textOracle : String → Option String) : List PElement → List PElement
  | [] => []
  | el :: rest => textStep textOracle el :: textPass textOracle rest

/-- The non-raising behaviour of the Image loop body for one element:
skip a falsy payload, ask the summarization oracle otherwise, a raised
oracle exception being caught. -/
def imageStep (imgOracle : String → Option String) (el : PElement) : PElement :=
  if el.typ == "Image" then
    match el.metadata with
    | none => el
    | some md =>
      match md.image_base64 with
      | none => el
      | some b64 =>
        if b64 == "" then el
        else
          match imgOracle b64 with
          | some s => { el with text := some s }
          | none => el
  else el

/-- The Image loop of enrich_json_with_summaries: the metadata and
image_base64 lookups happen before the per-image try block, so a missing
key raises an uncaught KeyError that aborts the whole collection; only
the summarization call itself is guarded. -/
def imagePass (imgOracle : String → Option String) :
    List PElement → Except String (List PElement)
  | [] => Except.ok []
  | el :: rest =>
    if el.typ == "Image" then
      match el.metadata with
      | none => Except.error "KeyError: metadata"
      | some md =>
        match md.image_base64 with
        | none => Except.error "KeyError: image_base64"
        | some b64 =>
          if b64 == "" then (imagePass imgOracle rest).map (fun r => el :: r)
          else
            match imgOracle b64 with
            | none => (imagePass imgOracle rest).map (fun r => el :: r)
            | some s =>
              (imagePass imgOracle rest).map
                (fun r => { el with text := some s } :: r)
    else (imagePass imgOracle rest).map (fun r => el :: r)

/-- The body of the Table loop for one element: here the metadata and
payload lookups sit inside the try block, so a missing key is caught and
the element skipped, as is a failed summarization call. -/
def tableStep (tblOracle : String → Option String) (el : PElement) : PElement :=
  if el.typ == "Table" then
    match el.metadata with
    | none => el
    | some md =>
      match md.image_base64 with
      | none => el
      | some b64 =>
        if b64 == "" then el
        else
          match tblOracle b64 with
          | some s => { el with text := some s }
          | none => el
  else el

/-- The Table loop over the collection. -/
def tablePass (tblOracle : String → Option String) : List PElement → List PElement
  | [] => []
  | el :: rest => tableStep tblOracle el :: tablePass tblOracle rest

/-- The body of the Title loop for one element: the text lookup sits
inside the try block (a missing key is caught), and the Rule Tagger —
a pure function — enriches the title. -/
def titleStep (el : PElement) : PElement :=
  if el.typ == "Title" then
    match el.text with
    | none => el
    | some t => { el with text := some (String.mk (RuleTagger.enrich_title t.data)) }
  else el

/-- The Title loop over the collection. -/
def titlePass : List PElement → List PElement
  | [] => []
  | el :: rest => titleStep el :: titlePass rest

/-- enrich_json_with_summaries (helpers/enrichments.py): the
NarrativeText, Image, Table and Title loops in order; only the Image
loop can abort the collection (uncaught KeyError), every other
per-element failure is caught. -/
def enrich_json_with_summaries (textOracle imgOracle tblOracle : String → Option String)
    (els : List PElement) : Except String (List PElement) :=
  (imagePass imgOracle (textPass textOracle els)).map
    (fun els₂ => titlePass (tablePass tblOracle els₂))

/-- The text pass is an element-wise map. -/
lemma textPass_eq_map (textOracle : String → Option String) (els : List PElement) :
    textPass textOracle els = els.map (textStep textOracle) := by
  induction els with
  | nil => rfl
  | cons el rest ih => simp [textPass, ih]

/-- The table pass is an element-wise map. -/
lemma tablePass_eq_map (tblOracle : String → Option String) (els : List PElement) :
    tablePass tblOracle els = els.map (tableStep tblOracle) := by
  induction els with
  | nil => rfl
  | cons el rest ih => simp [tablePass, ih]

/-- The title pass is an element-wise map. -/
lemma titlePass_eq_map (els : List PElement) :
    titlePass els = els.map titleStep := by
  induction els with
  | nil => rfl
  | cons el rest ih => simp [titlePass, ih]

/-- The text step changes only the text field. -/
lemma textStep_typ_metadata (textOracle : String → Option String) (el : PElement) :
    (textStep textOracle el).typ = el.typ ∧
    (textStep textOracle el).metadata = el.metadata := by
  by_cases h1 : (el.typ == "NarrativeText") = true
  · by_cases h2 : (el.text.getD "" == "") = true
    · simp [textStep, h1, h2]
    · cases ho : textOracle (el.text.getD "") <;> simp [textStep, h1, h2, ho]
  · simp [textStep, h1]

/-- When every Image element's metadata carries the image_base64 key,
the image pass never raises and is an element-wise map. -/
lemma imagePass_ok (imgOracle : String → Option String) (els : List PElement)
    (h : ∀ el ∈ els, el.typ = "Image" →
      ∃ md b, el.metadata = some md ∧ md.image_base64 = some b) :
    imagePass imgOracle els = Except.ok (els.map (imageStep imgOracle)) := by
  induction els with
  | nil => rfl
  | cons el rest ih =>
    have hrest := ih (fun e he ht => h e (List.mem_cons_of_mem el he) ht)
    by_cases ht : el.typ = "Image"
    · obtain ⟨md, b, hmd, hb⟩ := h el (List.mem_cons_self el rest) ht
      simp only [imagePass, imageStep, List.map_cons, ht, hmd, hb]
      by_cases hbe : (b == "") = true
      · simp [hbe, hrest, Except.map]
      · cases him : imgOracle b <;> simp [hbe, him, hrest, Except.map]
    · simp only [imagePass, imageStep, List.map_cons]
      have ht' : (el.typ == "Image") = false := by simpa using ht
      simp [ht', hrest, Except.map]

/-- Oracles for the claim C6 counterexample and witness. -/
def textOracleW6 : String → Option String := fun _ => none

/-- Image oracle for claim C6. -/
def imgOracleW6 : String → Option String := fun _ => some "an image"

/-- Table oracle for claim C6. -/
def tblOracleW6 : String → Option String := fun _ => none

/-- A collection whose Image element lacks the image_base64 key,
followed by a Title element. -/
def elsW6 : List PElement := [⟨"Image", some "img", some ⟨none⟩⟩,
                              ⟨"Title", some "zz", none⟩]

/-- A collection exercising every per-element failure that is caught. -/
def elsOkW6 : List PElement :=
  [⟨"NarrativeText", some "body", none⟩,
   ⟨"Image", none, some ⟨some "b64"⟩⟩,
   ⟨"Table", some "tbl", none⟩,
   ⟨"Title", some "zz", none⟩]

end Enricher

open Enricher in
/-- Claim C6, counterexample: an Image element whose metadata lacks the
image_base64 key raises an uncaught KeyError that aborts the whole
collection — the Title element after it is never enriched — so 'a
failure enriching one element is caught and processing continues' does
not hold for every element. -/
theorem claim6_counterexample :
    enrich_json_with_summaries textOracleW6 imgOracleW6 tblOracleW6 elsW6 =
      Except.error "KeyError: image_base64" := by
  rfl

open Enricher in
/-- Claim C6, amended: provided every Image element's metadata carries
the image_base64 key, the enrichment never aborts: each element is
transformed independently by the four per-element steps (all caught
failures — a failing tagging, summarization or table call, a missing
text or table payload — merely leave that element unchanged), so the
collection result is an element-wise map. -/
theorem claim6_amended_per_element_isolation
    (textOracle imgOracle tblOracle : String → Option String)
    (els : List Enricher.PElement)
    (h : ∀ el ∈ els, el.typ = "Image" →
      ∃ md b, el.metadata = some md ∧ md.image_base64 = some b) :
    enrich_json_with_summaries textOracle imgOracle tblOracle els =
      Except.ok (els.map (fun el =>
        titleStep (tableStep tblOracle (imageStep imgOracle
          (textStep textOracle el))))) := by
  unfold enrich_json_with_summaries
  rw [textPass_eq_map]
  rw [imagePass_ok imgOracle _ (fun e he ht => ?_)]
  · simp only [Except.map, List.map_map]
    congr 1
    rw [tablePass_eq_map, titlePass_eq_map, List.map_map, List.map_map]
    rfl
  · obtain ⟨e₀, he₀, heq⟩ := List.mem_map.mp he
    have hpres := textStep_typ_metadata textOracle e₀
    obtain ⟨md, b, hmd, hb⟩ := h e₀ he₀ (by rw [← hpres.1, heq, ht])
    exact ⟨md, b, by rw [← heq, hpres.2, hmd], hb⟩

open Enricher in
/-- Witness for the amended claim C6: a collection with a failing text
oracle, an image without a text key, a table with missing metadata and a
title is enriched without aborting. -/
theorem claim6_amended_witness :
    enrich_json_with_summaries textOracleW6 imgOracleW6 tblOracleW6 elsOkW6 =
      Except.ok (elsOkW6.map (fun el =>
        titleStep (tableStep tblOracleW6 (imageStep imgOracleW6
          (textStep textOracleW6 el))))) :=
  claim6_amended_per_element_isolation textOracleW6 imgOracleW6 tblOracleW6
    elsOkW6 (by
      intro el hel ht
      simp only [elsOkW6, List.mem_cons, List.not_mem_nil, or_false] at hel
      rcases hel with rfl | rfl | rfl | rfl
      · exact absurd ht (by decide)
      · exact ⟨⟨some "b64"⟩, "b64", rfl, rfl⟩
      · exact absurd ht (by decide)
      · exact absurd ht (by decide))
